import Mathlib

/-
Verification development for the bundling core of a JavaScript asset build
system.  The three passes are shallowly embedded:

* `DefaultBundler.js` (PrimaryBundler): the group-opening decision and the
  per-asset bundle creation when a new bundle group is opened.
* `OptimizeBundler.js` (OptimizingBundler): the hoist pass, ancestor
  deduplication, shared-bundle candidate collection / sorting / processing,
  and async-dependency internalization, over an explicit bundle-graph state.
* the WrapMarker pass: propagation of the `shouldWrap` flag through a
  bundle's dependency subgraph.

Host (`MutableBundleGraph`) queries whose implementation lives outside the
repository (`getTotalSize`, `getDependencyResolution`,
`resolveExternalDependency`, `findBundlesWithDependency`,
`isAssetInAncestorBundles`, the per-bundle dependency listing and the
asset graph itself) are carried as oracle fields of the graph state; the
relations the code itself maintains (bundle list, bundle-group membership,
bundle/asset containment) are explicit lists.
-/

/-! ## PrimaryBundler (DefaultBundler.js) -/

/-- A dependency as seen by the PrimaryBundler: the `isEntry` / `isAsync`
flags and the optional declared target. -/
structure PDependency where
  isEntry : Bool
  isAsync : Bool
  target : Option String
deriving DecidableEq, Repr

/-- An asset as seen by the PrimaryBundler. -/
structure PAsset where
  id : String
  ty : String
  isIsolated : Bool
  isInline : Bool
deriving DecidableEq, Repr

/-- A bundle record as created by `bundleGraph.createBundle` in the
group-opening branch of DefaultBundler.js (lines 48-53).  The `ty` field is
the bundle type the host derives from the entry asset. -/
structure PBundle where
  entryAsset : Option String
  ty : String
  isEntry : Bool
  isInline : Bool
  target : String
deriving DecidableEq, Repr

/-- The group-opening condition of DefaultBundler.js lines 34-39:
`(dependency.isEntry && resolution) || (dependency.isAsync && resolution) ||
resolution?.isIsolated || resolution?.isInline`.  JavaScript truthiness of
`resolution` is non-nullness. -/
def opensNewGroup (dep : PDependency) (resolution : Option PAsset) : Bool :=
  (dep.isEntry && resolution.isSome) || (dep.isAsync && resolution.isSome) ||
    (match resolution with
     | some a => a.isIsolated || a.isInline
     | none => false)

/-- Spec-side restatement of the group-opening condition, following the
spec's words: "Open a new bundle group when the dependency is an entry, is
async, or resolves to an isolated/inline asset."  Used to compare the claim
against the code's condition. -/
def opensNewGroupSpec (dep : PDependency) (resolution : Option PAsset) : Bool :=
  dep.isEntry || dep.isAsync ||
    (match resolution with
     | some a => a.isIsolated || a.isInline
     | none => false)

/-- One bundle created per resolved asset when a new bundle group is opened
(DefaultBundler.js lines 47-58): `entryAsset` is the asset,
`isEntry = asset.isIsolated ? false : Boolean(dependency.isEntry)`,
`isInline = asset.isInline`, `target = bundleGroup.target`. -/
def mkGroupBundle (dep : PDependency) (groupTarget : String) (asset : PAsset) : PBundle :=
  { entryAsset := some asset.id
    ty := asset.ty
    isEntry := if asset.isIsolated then false else dep.isEntry
    isInline := asset.isInline
    target := groupTarget }

/-- The group-opening branch of DefaultBundler.js (lines 40-58): the group
target is `nullthrows(dependency.target ?? context?.bundleGroup?.target)`
(`none` models the thrown MissingTarget error), and one bundle is created
per resolved asset, each added to the new bundle group.  The returned pair
is the group target together with the bundles of the new group. -/
def openBundleGroup (dep : PDependency) (assets : List PAsset)
    (inheritedTarget : Option String) : Option (String × List PBundle) :=
  match dep.target with
  | some t => some (t, assets.map (mkGroupBundle dep t))
  | none =>
    match inheritedTarget with
    | some t => some (t, assets.map (mkGroupBundle dep t))
    | none => none

/-! ## WrapMarker (unnamed source file) -/

/-- A dependency as seen by the WrapMarker: its id (used to key the
per-bundle resolution query) and its own `meta.shouldWrap` flag. -/
structure WDep where
  id : String
  shouldWrap : Bool
deriving DecidableEq, Repr

/-- A bundle's dependency subgraph in DFS order, in left-child
right-sibling form: `node d sub sib` is a dependency node `d` whose
children subforest is `sub` and whose right siblings form `sib`.  Asset
nodes are transparent to the WrapMarker visitor (it only acts on
dependency nodes and passes the context through), so they are elided. -/
inductive DepTree where
  | leaf : DepTree
  | node : WDep → DepTree → DepTree → DepTree
deriving DecidableEq, Repr

/-- The WrapMarker visitor run over a bundle's dependency subgraph.
`resolve` models `bundleGraph.getDependencyResolution(dep, bundle)`;
`sw` is the DFS context (falsy initially); `st` is the set of asset ids
whose `meta.shouldWrap` is true.  Per the source: if the inherited flag or
the dependency's own `meta.shouldWrap` is set, the resolved asset (when
resolution is non-null) is marked, and the context for the children
becomes `true`; otherwise the context is passed through unchanged. -/
def wrapVisit (resolve : String → Option String) :
    Bool → List String → DepTree → List String
  | _, st, DepTree.leaf => st
  | sw, st, DepTree.node d sub sib =>
    if sw || d.shouldWrap then
      let st1 := match resolve d.id with
        | some a => a :: st
        | none => st
      wrapVisit resolve sw (wrapVisit resolve true st1 sub) sib
    else
      wrapVisit resolve sw (wrapVisit resolve sw st sub) sib

/-- Spec-side marking, following the spec's words: within a bundle's
dependency subgraph, an asset is marked exactly when it is the resolution
of a dependency node whose own `meta.shouldWrap` is set or which inherits
the flag from an ancestor dependency (the downward-closed marking). -/
def wrapMarking (resolve : String → Option String) :
    Bool → DepTree → List String
  | _, DepTree.leaf => []
  | sw, DepTree.node d sub sib =>
    (if sw || d.shouldWrap then (resolve d.id).toList else []) ++
      wrapMarking resolve (sw || d.shouldWrap) sub ++ wrapMarking resolve sw sib

/-- A bundle as seen by the WrapMarker: its per-bundle dependency
resolution query and its dependency subgraph. -/
structure WBundle where
  resolve : String → Option String
  tree : DepTree

/-- The whole WrapMarker pass: for each bundle (postorder exit over
`traverseBundles`), run the visitor over the bundle's dependency subgraph
with an initially-unset context, threading the asset `meta.shouldWrap`
state through. -/
def runWrapMarker (bundles : List WBundle) (st : List String) : List String :=
  bundles.foldl (fun s b => wrapVisit b.resolve false s b.tree) st

/-! ## OptimizingBundler (OptimizeBundler.js) -/

/-- The OPTIONS constants of OptimizeBundler.js. -/
def OPTIONS.minBundles : Nat := 1

/-- `minBundleSize` of OptimizeBundler.js. -/
def OPTIONS.minBundleSize : Nat := 30000

/-- `maxParallelRequests` of OptimizeBundler.js. -/
def OPTIONS.maxParallelRequests : Nat := 5

/-- A bundle record of the optimizer's bundle graph.  `mainEntry` models
`bundle.getMainEntry()?.id`; `envIsolated` models `bundle.env.isIsolated()`. -/
structure OBundle where
  id : String
  ty : String
  env : String
  envIsolated : Bool
  target : String
  isEntry : Bool
  isInline : Bool
  isSplittable : Bool
  mainEntry : Option String
deriving DecidableEq, Repr

/-- The result of `bundleGraph.resolveExternalDependency`. -/
inductive ExternalRes where
  | bundleGroup : String → ExternalRes
  | asset : String → ExternalRes
deriving DecidableEq, Repr

/-- The optimizer's bundle-graph state.  `bundles`, `groups`, the
bundle/bundle-group `membership` relation, the bundle/asset `containment`
relation, the asset-graph edges, the internalized (bundle, dependency)
pairs and the `asyncBundleGroups` working set are explicit; the remaining
fields are host-API oracles (queries the surrounding system implements):
`totalSize` is `getTotalSize`, `depResolution` is
`getDependencyResolution`, `externalResolution` is
`resolveExternalDependency`, `bundlesWithDependency` is
`findBundlesWithDependency`, `ancestorAsset` is
`isAssetInAncestorBundles`, `bundleDeps` lists the dependency nodes of a
bundle's traversal and `depAssets` is `getDependencyAssets`. -/
structure OGraph where
  bundles : List OBundle
  groups : List String
  membership : List (String × String)
  containment : List (String × String)
  assetEdges : List (String × String)
  internalized : List (String × String)
  asyncGroups : List String
  totalSize : String → Nat
  depResolution : String → Option String
  externalResolution : String → Option ExternalRes
  bundlesWithDependency : String → List String
  ancestorAsset : String → String → Bool
  bundleDeps : String → List String
  depAssets : String → List String

/-- Insert into a JavaScript-`Set`-like list: append if absent, keeping
insertion order. -/
def insertSet (acc : List String) (x : String) : List String :=
  if x ∈ acc then acc else acc ++ [x]

/-- `bundleGraph.findBundlesWithAsset(asset)`: the bundles whose
containment relation holds the asset, in graph (list) order. -/
def findBundlesWithAsset (g : OGraph) (asset : String) : List OBundle :=
  g.bundles.filter (fun b => decide ((b.id, asset) ∈ g.containment))

/-- `bundleGraph.getBundleGroupsContainingBundle(bundle)`. -/
def getBundleGroupsContainingBundle (g : OGraph) (bId : String) : List String :=
  g.groups.filter (fun grp => decide ((bId, grp) ∈ g.membership))

/-- `bundleGraph.getBundlesInBundleGroup(group)`, as the list of distinct
bundle ids attached to the group. -/
def getBundlesInBundleGroup (g : OGraph) (grp : String) : List String :=
  ((g.membership.filter (fun p => p.2 == grp)).map Prod.fst).dedup

/-- The member count of a bundle group, i.e.
`bundleGraph.getBundlesInBundleGroup(group).length`. -/
def countGroup (g : OGraph) (grp : String) : Nat :=
  (getBundlesInBundleGroup g grp).length

/-- `bundleGraph.getSiblingBundles(bundle)`: the other bundles that share
a bundle group with the given bundle. -/
def getSiblingBundles (g : OGraph) (bId : String) : List OBundle :=
  g.bundles.filter (fun s =>
    s.id != bId &&
      g.groups.any (fun grp =>
        decide ((bId, grp) ∈ g.membership) && decide ((s.id, grp) ∈ g.membership)))

/-- `bundleGraph.addBundleToBundleGroup(bundle, group)`: graph edges are a
set, so adding an existing membership edge is a no-op. -/
def addBundleToBundleGroup (g : OGraph) (bId grp : String) : OGraph :=
  if (bId, grp) ∈ g.membership then g
  else { g with membership := g.membership ++ [(bId, grp)] }

/-- One expansion round of asset-graph reachability. -/
def expandAssets (g : OGraph) (acc : List String) : List String :=
  acc.foldl
    (fun s a => ((g.assetEdges.filter (fun e => e.1 == a)).map Prod.snd).foldl insertSet s)
    acc

/-- Iterated expansion. -/
def iterExpand (g : OGraph) : Nat → List String → List String
  | 0, acc => acc
  | n + 1, acc => iterExpand g n (expandAssets g acc)

/-- The asset subgraph rooted at an asset: reflexive-transitive closure of
the asset-graph edges, computed by bounded iteration (the bound
`assetEdges.length + 1` suffices since each productive round adds a new
node). -/
def reachableAssets (g : OGraph) (a : String) : List String :=
  iterExpand g (g.assetEdges.length + 1) [a]

/-- `bundleGraph.removeAssetGraphFromBundle(asset, bundle)` (host API):
drops the asset's subgraph from the bundle's containment. -/
def removeAssetGraphFromBundle (g : OGraph) (asset bId : String) : OGraph :=
  { g with containment := (g.containment.filter
      (fun p => !(p.1 == bId && decide (p.2 ∈ reachableAssets g asset)))) }

/-- `bundleGraph.addAssetGraphToBundle(asset, bundle)` (host API): adds
the asset's subgraph to the bundle's containment. -/
def addAssetGraphToBundle (g : OGraph) (asset bId : String) : OGraph :=
  { g with containment := ((reachableAssets g asset).foldl
      (fun cs x => if (bId, x) ∈ cs then cs else cs ++ [(bId, x)])
      g.containment) }

/-- `deduplicateBundle` (OptimizeBundler.js lines 244-268): if the
bundle's environment is isolated or the bundle is not splittable, return
immediately; otherwise walk the bundle's dependency nodes and, for each
dependency asset that is both in the bundle and present in an ancestor
bundle, remove its subgraph from the bundle. -/
def deduplicateBundle (g : OGraph) (bundle : OBundle) : OGraph :=
  if bundle.envIsolated || !bundle.isSplittable then g
  else
    (g.bundleDeps bundle.id).foldl
      (fun g1 dep =>
        (g1.depAssets dep).foldl
          (fun g2 asset =>
            if decide ((bundle.id, asset) ∈ g2.containment) &&
                g2.ancestorAsset bundle.id asset then
              removeAssetGraphFromBundle g2 asset bundle.id
            else g2)
          g1)
      g

/-- The body of the hoist pass (code "Step 2", OptimizeBundler.js lines
30-73) for one visited bundle: skip inline or non-splittable bundles and
bundles without a main entry; otherwise, for each candidate bundle that
duplicates the main entry, if every bundle group containing the candidate
has fewer than `maxParallelRequests` bundles, remove the main entry's
subgraph from the candidate and add the bundle and all of its non-inline
siblings to each such group. -/
def hoistBundle (g : OGraph) (bundle : OBundle) : OGraph :=
  if bundle.isInline || !bundle.isSplittable then g
  else
    match bundle.mainEntry with
    | none => g
    | some mainEntry =>
      let siblings := (getSiblingBundles g bundle.id).filter (fun s => !s.isInline)
      let candidates := (findBundlesWithAsset g mainEntry).filter
        (fun c => c.id != bundle.id && !c.isEntry && !c.isInline && c.isSplittable)
      candidates.foldl
        (fun g1 c =>
          let bundleGroups := getBundleGroupsContainingBundle g1 c.id
          if bundleGroups.all
              (fun grp => decide (countGroup g1 grp < OPTIONS.maxParallelRequests)) then
            let g2 := removeAssetGraphFromBundle g1 mainEntry c.id
            bundleGroups.foldl
              (fun g3 grp =>
                (bundle :: siblings).foldl
                  (fun g4 tb => addBundleToBundleGroup g4 tb.id grp) g3)
              g2
          else g1)
        g

/-- The whole hoist pass: `traverseBundles` over the (unchanging) bundle
list. -/
def step1Hoist (g : OGraph) : OGraph :=
  g.bundles.foldl hoistBundle g

/-- The ancestor-deduplication pass (code "Step 3"): `deduplicateBundle`
on every bundle (postorder exit order, modeled by the bundle-list order;
the pass creates no bundles). -/
def step2Dedup (g : OGraph) : OGraph :=
  g.bundles.foldl deduplicateBundle g

/-- A shared-bundle candidate: the accumulated assets, the source bundles
(a JavaScript `Set`, modeled as an insertion-ordered duplicate-free list
of bundle records) and the summed size. -/
structure Cand where
  assets : List String
  sourceBundles : List OBundle
  size : Nat
deriving DecidableEq, Repr

/-- Set-insertion of a bundle record, keeping insertion order. -/
def insertBundleSet (acc : List OBundle) (b : OBundle) : List OBundle :=
  if b ∈ acc then acc else acc ++ [b]

/-- Lexicographic order on character lists by code point, the order
JavaScript's default `Array.prototype.sort()` uses on strings (UTF-16
code-unit order, which agrees with code-point order on these ids). -/
def charListLt : List Char → List Char → Bool
  | [], [] => false
  | [], _ :: _ => true
  | _ :: _, [] => false
  | c :: cs, d :: ds =>
    if c.toNat < d.toNat then true
    else if d.toNat < c.toNat then false
    else charListLt cs ds

/-- Strict string order by code points. -/
def strLt (a b : String) : Bool :=
  charListLt a.data b.data

/-- Non-strict string order by code points. -/
def strLe (a b : String) : Bool :=
  !strLt b a

/-- Insertion into a string insertion sort (ascending), modeling
JavaScript `Array.prototype.sort()` on the bundle-id strings. -/
def insertStr (x : String) : List String → List String
  | [] => [x]
  | y :: ys => if strLe x y then x :: y :: ys else y :: insertStr x ys

/-- Ascending lexicographic sort of strings (`.sort()` on ids). -/
def sortStr (l : List String) : List String :=
  l.foldr insertStr []

/-- The key of a candidate as built at collection time
(OptimizeBundler.js lines 115-118): the sorted bundle ids joined with
`":"`. -/
def candidateKey (containing : List OBundle) : String :=
  String.intercalate ":" (sortStr (containing.map (fun b => b.id)))

/-- The key of an accumulated candidate, recomputed from its source
bundles (used to state ordering properties). -/
def candKey (c : Cand) : String :=
  String.intercalate ":" (sortStr (c.sourceBundles.map (fun b => b.id)))

/-- The shared-bundle-extraction filter on containing bundles
(OptimizeBundler.js lines 104-112): non-entry, splittable bundles that do
not have the asset as their main entry. -/
def candidateSourceFilter (asset : String) (b : OBundle) : Bool :=
  !b.isEntry && b.isSplittable &&
    (match b.mainEntry with
     | none => true
     | some m => m != asset)

/-- Update the value at a key of an insertion-ordered map (JavaScript
`Map` update keeps the key's original position). -/
def mapUpdate (m : List (String × Cand)) (k : String) (f : Cand → Cand) :
    List (String × Cand) :=
  m.map (fun p => if p.1 = k then (p.1, f p.2) else p)

/-- Look up a key in the insertion-ordered candidate map. -/
def mapLookup (m : List (String × Cand)) (k : String) : Option Cand :=
  (m.find? (fun p => p.1 == k)).map Prod.snd

/-- The candidate-collection visitor (OptimizeBundler.js lines 93-138)
for one asset node: filter the containing bundles, and when more than
`minBundles` remain, key a candidate by the sorted id list and accumulate
the asset, the source bundles and the summed `getTotalSize`. -/
def considerAsset (g : OGraph) (m : List (String × Cand)) (asset : String) :
    List (String × Cand) :=
  let containing := (findBundlesWithAsset g asset).filter (candidateSourceFilter asset)
  if containing.length > OPTIONS.minBundles then
    let key := candidateKey containing
    match mapLookup m key with
    | some _ =>
      mapUpdate m key (fun c =>
        { assets := c.assets ++ [asset]
          sourceBundles := containing.foldl insertBundleSet c.sourceBundles
          size := c.size + g.totalSize asset })
    | none =>
      m ++ [(key,
        { assets := [asset]
          sourceBundles := containing.foldl insertBundleSet []
          size := g.totalSize asset })]
  else m

/-- The candidate map after traversing the asset contents in the given
order (`traverseContents`; the order already reflects any `skipChildren`
pruning, which only restricts which assets are visited). -/
def collectCandidates (g : OGraph) (assetOrder : List String) :
    List (String × Cand) :=
  assetOrder.foldl (considerAsset g) []

/-- Stable descending insertion by `size`: a candidate is placed before
the first element of strictly smaller-or-equal... more precisely, before
the first element whose size it strictly... the new element (earlier in
the input) goes before every element whose size is not larger, which is
exactly the output of JavaScript's stable `sort((a, b) => b.size - a.size)`. -/
def insertBySize (c : Cand) : List Cand → List Cand
  | [] => [c]
  | d :: ds => if d.size ≤ c.size then c :: d :: ds else d :: insertBySize c ds

/-- Stable sort of the candidates, descending by size. -/
def sortBySizeDesc : List Cand → List Cand
  | [] => []
  | c :: cs => insertBySize c (sortBySizeDesc cs)

/-- The filtered candidate values, in map insertion order, before sorting
(OptimizeBundler.js lines 145-146). -/
def filteredCandidates (g : OGraph) (assetOrder : List String) : List Cand :=
  ((collectCandidates g assetOrder).map Prod.snd).filter
    (fun c => decide (OPTIONS.minBundleSize ≤ c.size))

/-- `sortedCandidates` (OptimizeBundler.js lines 141-147): the candidate
values that meet the size threshold, sorted descending by size with the
stable JavaScript sort. -/
def sortedCandidates (g : OGraph) (assetOrder : List String) : List Cand :=
  sortBySizeDesc (filteredCandidates g assetOrder)

/-- The bundle groups gathered for a candidate (OptimizeBundler.js lines
151-159): the union, as an insertion-ordered set, of the groups containing
each source bundle. -/
def gatherGroups (g : OGraph) (c : Cand) : List String :=
  c.sourceBundles.foldl
    (fun acc b => (getBundleGroupsContainingBundle g b.id).foldl insertSet acc)
    []

/-- The shared bundle created for a candidate (OptimizeBundler.js lines
172-181): its `uniqueKey` is the hash of the joined source-bundle ids,
modeled by the joined ids themselves as an injective stand-in for
`md5FromString`; `isSplittable = true`; `env`, `target`, `type` come from
the first source bundle, and a `uniqueKey` bundle has no entry asset. -/
def sharedBundleFor (c : Cand) (firstBundle : OBundle) : OBundle :=
  { id := "md5:" ++ String.intercalate ":" (c.sourceBundles.map (fun b => b.id))
    ty := firstBundle.ty
    env := firstBundle.env
    envIsolated := firstBundle.envIsolated
    target := firstBundle.target
    isEntry := false
    isInline := false
    isSplittable := true
    mainEntry := none }

/-- Moving the candidate assets (OptimizeBundler.js lines 183-189): add
each candidate asset's subgraph to the shared bundle and remove it from
every source bundle. -/
def moveCandidateAssets (g : OGraph) (c : Cand) (sharedId : String) : OGraph :=
  c.assets.foldl
    (fun ga asset =>
      let gb := addAssetGraphToBundle ga asset sharedId
      c.sourceBundles.foldl
        (fun gc b => removeAssetGraphFromBundle gc asset b.id) gb)
    g

/-- Attaching the shared bundle to every gathered bundle group
(OptimizeBundler.js lines 192-194). -/
def attachShared (g : OGraph) (sharedId : String) (l : List String) : OGraph :=
  l.foldl (fun ga grp => addBundleToBundleGroup ga sharedId grp) g

/-- Processing of one sorted candidate, continued: skip when some
gathered group is at the parallel-request limit; otherwise create the
shared bundle, move the candidate assets, attach the shared bundle to the
gathered groups and deduplicate it. -/
def processCandidate (g : OGraph) (c : Cand) : OGraph :=
  let bundleGroups := gatherGroups g c
  if bundleGroups.any
      (fun grp => decide (OPTIONS.maxParallelRequests ≤ countGroup g grp)) then g
  else
    match c.sourceBundles with
    | [] => g
    | firstBundle :: _ =>
      let sharedBundle := sharedBundleFor c firstBundle
      let g1 := { g with bundles := g.bundles ++ [sharedBundle] }
      let g2 := moveCandidateAssets g1 c sharedBundle.id
      let g3 := attachShared g2 sharedBundle.id bundleGroups
      deduplicateBundle g3 sharedBundle

/-- The candidate-processing loop of the shared-bundle-extraction step. -/
def processCandidates (g : OGraph) (cands : List Cand) : OGraph :=
  cands.foldl processCandidate g

/-- The whole shared-bundle-extraction step (code "Step 4"). -/
def step3Shared (g : OGraph) (assetOrder : List String) : OGraph :=
  processCandidates g (sortedCandidates g assetOrder)

/-- A dependency as seen by the async-internalization step. -/
structure ODep where
  id : String
  isEntry : Bool
  isAsync : Bool
deriving DecidableEq, Repr

/-- The loop body of the async-internalization visitor (code "Step 5",
OptimizeBundler.js lines 225-232): internalize the dependency in a bundle
that already contains the resolved asset or can reach it through ancestor
bundles. -/
def internalizeStep (dep : ODep) (resolution : String) (g2 : OGraph) (bId : String) :
    OGraph :=
  if decide ((bId, resolution) ∈ g2.containment) || g2.ancestorAsset bId resolution then
    { g2 with internalized := g2.internalized ++ [(bId, dep.id)] }
  else g2

/-- Whether an external resolution result is a bundle group (the asserted
upstream contract of the internalization step). -/
def isBundleGroupRes : Option ExternalRes → Bool
  | some (ExternalRes.bundleGroup _) => true
  | _ => false

/-- The per-dependency body of the async-internalization traversal,
continued: skip entry or non-async dependencies and null resolutions;
assert the external resolution is a bundle group
(`invariant(externalResolution?.type === 'bundle_group')`; failure is the
fatal `ExternalResolutionMismatch`); record the group; internalize in
every containing bundle that has or can reach the resolved asset. -/
def processAsyncDep (g : OGraph) (dep : ODep) : Except String OGraph :=
  if dep.isEntry || !dep.isAsync then Except.ok g
  else
    match g.depResolution dep.id with
    | none => Except.ok g
    | some resolution =>
      match g.externalResolution dep.id with
      | some (ExternalRes.bundleGroup grp) =>
        let g1 := { g with asyncGroups := insertSet g.asyncGroups grp }
        Except.ok
          ((g1.bundlesWithDependency dep.id).foldl (internalizeStep dep resolution) g1)
      | _ => Except.error "ExternalResolutionMismatch"

/-! ## Concrete instances -/

/-- A bundle-graph state with no content and trivial oracles, used as the
base of the concrete instances below. -/
def baseOGraph : OGraph :=
  { bundles := []
    groups := []
    membership := []
    containment := []
    assetEdges := []
    internalized := []
    asyncGroups := []
    totalSize := fun _ => 0
    depResolution := fun _ => none
    externalResolution := fun _ => none
    bundlesWithDependency := fun _ => []
    ancestorAsset := fun _ _ => false
    bundleDeps := fun _ => []
    depAssets := fun _ => [] }

/-- A non-entry, non-inline, splittable bundle template. -/
def plainBundle (i : String) (me : Option String) : OBundle :=
  { id := i
    ty := "js"
    env := "browser"
    envIsolated := false
    target := "dist"
    isEntry := false
    isInline := false
    isSplittable := true
    mainEntry := me }

/-- Hoist-pass instance: bundle `B` (main entry `a`) shares group `g1`
with its sibling `S`; candidate `C` duplicates `a` and lives in group `G`
together with `D3`, `D4`, `D5`, so `G` has 4 bundles. -/
def exG1 : OGraph :=
  { baseOGraph with
    bundles := [plainBundle "B" (some "a"), plainBundle "S" (some "s"),
      plainBundle "C" (some "c"), plainBundle "D3" none,
      plainBundle "D4" none, plainBundle "D5" none]
    groups := ["g1", "G"]
    membership := [("B", "g1"), ("S", "g1"), ("C", "G"), ("D3", "G"),
      ("D4", "G"), ("D5", "G")]
    containment := [("B", "a"), ("C", "a"), ("S", "s"), ("C", "c")] }

/-- Shared-extraction instance: asset `x` is duplicated in bundles `1` and
`2`, asset `y` in bundles `0` and `3`; both subgraphs weigh 40000 bytes;
bundles `1` and `2` share group `gA`. -/
def exG4 : OGraph :=
  { baseOGraph with
    bundles := [plainBundle "1" none, plainBundle "2" none,
      plainBundle "0" none, plainBundle "3" none]
    groups := ["gA"]
    membership := [("1", "gA"), ("2", "gA")]
    containment := [("1", "x"), ("2", "x"), ("0", "y"), ("3", "y")]
    totalSize := fun _ => 40000 }

/-- The candidate keyed `"1:2"` that the traversal of `exG4` produces for
asset `x`. -/
def candX : Cand :=
  { assets := ["x"]
    sourceBundles := [plainBundle "1" none, plainBundle "2" none]
    size := 40000 }

/-- Budget-skip instance: the candidate's first source bundle `p` lives in
group `gB`, which already holds five bundles. -/
def exG5 : OGraph :=
  { baseOGraph with
    bundles := [plainBundle "p" none, plainBundle "q" none,
      plainBundle "m2" none, plainBundle "m3" none,
      plainBundle "m4" none, plainBundle "m5" none]
    groups := ["gB", "gC"]
    membership := [("p", "gB"), ("m2", "gB"), ("m3", "gB"), ("m4", "gB"),
      ("m5", "gB"), ("q", "gC")]
    containment := [("p", "z"), ("q", "z")] }

/-- A candidate over `exG5` whose gathered groups include the full group
`gB`. -/
def cand5 : Cand :=
  { assets := ["z"]
    sourceBundles := [plainBundle "p" none, plainBundle "q" none]
    size := 50000 }

/-- Async-internalization instance whose external resolution is a bundle
group: dependency `d` resolves to asset `A`, contained in bundle `bZ`. -/
def exG6a : OGraph :=
  { baseOGraph with
    bundles := [plainBundle "bZ" none]
    groups := ["gX"]
    containment := [("bZ", "A")]
    depResolution := fun i => if i = "d" then some "A" else none
    externalResolution := fun i =>
      if i = "d" then some (ExternalRes.bundleGroup "gX") else none
    bundlesWithDependency := fun i => if i = "d" then ["bZ"] else [] }

/-- Async-internalization instance whose external resolution is an asset,
violating the upstream contract. -/
def exG6b : OGraph :=
  { exG6a with
    externalResolution := fun i =>
      if i = "d" then some (ExternalRes.asset "A") else none }

/-- The async, non-entry dependency used with `exG6a` / `exG6b`. -/
def dep6 : ODep := { id := "d", isEntry := false, isAsync := true }

/-- An environment-isolated splittable bundle, for the deduplication
frame theorem. -/
def exB8 : OBundle :=
  { plainBundle "W" (some "w") with envIsolated := true }

/-- The WrapMarker S6 scenario: dependency `a→b` carries
`meta.shouldWrap = true` and resolves to `b`; below it, dependency `b→c`
carries no flag and resolves to `c`. -/
def s6Tree : DepTree :=
  DepTree.node { id := "dab", shouldWrap := true }
    (DepTree.node { id := "dbc", shouldWrap := false } DepTree.leaf DepTree.leaf)
    DepTree.leaf

/-- The per-bundle resolution of the S6 scenario. -/
def s6Resolve : String → Option String :=
  fun i => if i = "dab" then some "b" else if i = "dbc" then some "c" else none

/-- The S6 bundle. -/
def s6Bundle : WBundle := { resolve := s6Resolve, tree := s6Tree }

/-- An unresolved flagged dependency for the C10 witness. -/
def depU : WDep := { id := "u", shouldWrap := true }

/-- Resolution map for the C10 witness: `u` is unresolved in the bundle,
`v` resolves to `c`. -/
def resolveW : String → Option String :=
  fun i => if i = "v" then some "c" else none

/-- The child subtree below the unresolved dependency `u`. -/
def subW : DepTree :=
  DepTree.node { id := "v", shouldWrap := false } DepTree.leaf DepTree.leaf

/-- A non-isolated asset for the PrimaryBundler witness. -/
def asset7 : PAsset := { id := "a1", ty := "js", isIsolated := false, isInline := false }

/-- An entry dependency with a declared target. -/
def dep7 : PDependency := { isEntry := true, isAsync := false, target := some "t" }

/-- An entry dependency with no target and (in the C2 counterexample) a
null resolution. -/
def entryDepNoRes : PDependency := { isEntry := true, isAsync := false, target := none }


/-! ## Helper lemmas -/

theorem mem_wrapVisit (resolve : String → Option String) :
    ∀ (t : DepTree) (sw : Bool) (st : List String) (a : String),
      a ∈ wrapVisit resolve sw st t ↔ a ∈ wrapMarking resolve sw t ∨ a ∈ st := by
  intro t
  induction t with
  | leaf =>
    intro sw st a
    simp [wrapVisit, wrapMarking]
  | node d sub sib ihsub ihsib =>
    intro sw st a
    by_cases h : (sw || d.shouldWrap) = true
    · cases hr : resolve d.id with
      | some x =>
        simp only [wrapVisit, wrapMarking, h, if_true, hr]
        rw [ihsib, ihsub]
        simp only [List.mem_append, List.mem_cons, Option.toList_some,
          List.mem_singleton]
        tauto
      | none =>
        simp only [wrapVisit, wrapMarking, h, if_true, hr]
        rw [ihsib, ihsub]
        simp only [List.mem_append, Option.toList_none, List.not_mem_nil]
        tauto
    · have hsw : sw = false := by
        cases hsw' : sw with
        | false => rfl
        | true => rw [hsw'] at h; simp at h
      have hd : d.shouldWrap = false := by
        cases hd' : d.shouldWrap with
        | false => rfl
        | true => rw [hd', hsw] at h; simp at h
      simp only [wrapVisit, wrapMarking, hsw, hd, Bool.or_self, Bool.false_or,
        if_false, Bool.false_eq_true]
      rw [ihsib, ihsub]
      simp only [List.mem_append, List.not_mem_nil]
      tauto

theorem mem_runWrapMarker :
    ∀ (bundles : List WBundle) (st : List String) (a : String),
      a ∈ runWrapMarker bundles st ↔
        a ∈ st ∨ ∃ wb ∈ bundles, a ∈ wrapMarking wb.resolve false wb.tree := by
  intro bundles
  induction bundles with
  | nil => intro st a; simp [runWrapMarker]
  | cons b bs ih =>
    intro st a
    have hstep : runWrapMarker (b :: bs) st =
        runWrapMarker bs (wrapVisit b.resolve false st b.tree) := rfl
    rw [hstep, ih, mem_wrapVisit]
    simp only [List.mem_cons]
    constructor
    · rintro (⟨hm | hs⟩ | ⟨wb, hwb, hm⟩)
      · exact Or.inr ⟨b, Or.inl rfl, hm⟩
      · exact Or.inl hs
      · exact Or.inr ⟨wb, Or.inr hwb, hm⟩
    · rintro (hs | ⟨wb, hwb | hwb, hm⟩)
      · exact Or.inl (Or.inr hs)
      · exact Or.inl (Or.inl (hwb ▸ hm))
      · exact Or.inr ⟨wb, hwb, hm⟩

/-! ## Claims -/

/-- Claim C9: after WrapMarker runs, an asset has `meta.shouldWrap` set
exactly when it already had it or it is the resolution of some dependency
node, in some bundle's dependency subgraph, that carries or inherits the
`shouldWrap` flag (the downward-closed marking `wrapMarking`); in
particular, in the S6 scenario (`a→b` with `meta.shouldWrap = true`,
`b→c`), both `b` and `c` end up marked while an unrelated asset `x` does
not. -/
theorem claim9_wrap_propagation :
    (∀ (bundles : List WBundle) (st : List String) (a : String),
        a ∈ runWrapMarker bundles st ↔
          a ∈ st ∨ ∃ wb ∈ bundles, a ∈ wrapMarking wb.resolve false wb.tree)
    ∧ ("b" ∈ runWrapMarker [s6Bundle] [] ∧ "c" ∈ runWrapMarker [s6Bundle] [] ∧
        "x" ∉ runWrapMarker [s6Bundle] []) := by
  refine ⟨mem_runWrapMarker, ?_, ?_, ?_⟩ <;> decide

/-- Claim C10: a dependency that carries or inherits the `shouldWrap`
flag but is unresolved in the current bundle sets no asset flag itself,
yet its whole subtree still inherits the flag: the visitor's result on
such a node is exactly the initial state extended by the marking of the
children subforest under an inherited `true` flag (and of the siblings
under the incoming flag). -/
theorem claim10_unresolved_propagation (resolve : String → Option String)
    (sw : Bool) (st : List String) (d : WDep) (sub sib : DepTree) (a : String)
    (hflag : (sw || d.shouldWrap) = true) (hres : resolve d.id = none) :
    a ∈ wrapVisit resolve sw st (DepTree.node d sub sib) ↔
      a ∈ st ∨ a ∈ wrapMarking resolve true sub ∨ a ∈ wrapMarking resolve sw sib := by
  simp only [wrapVisit, hflag, if_true, hres]
  rw [mem_wrapVisit, mem_wrapVisit]
  tauto

/-- Witness for claim C10 at a concrete input: the unresolved flagged
dependency `u` with child `v` resolving to `c`. -/
theorem claim10_witness :
    ("c" ∈ wrapVisit resolveW true [] (DepTree.node depU subW DepTree.leaf)) ↔
      ("c" ∈ ([] : List String) ∨ "c" ∈ wrapMarking resolveW true subW ∨
        "c" ∈ wrapMarking resolveW true DepTree.leaf) :=
  claim10_unresolved_propagation resolveW true [] depU subW DepTree.leaf "c"
    (by decide) (by decide)

/-- Claim C2, counterexample: an entry dependency whose resolution is
null does not open a bundle group (the code requires a non-null
resolution in the entry and async disjuncts), although the claim's
condition ("is an entry, is async, or resolves to an isolated or inline
asset") holds for it. -/
theorem claim2_counterexample :
    entryDepNoRes.isEntry = true ∧ opensNewGroup entryDepNoRes none = false ∧
      opensNewGroupSpec entryDepNoRes none = true := by
  decide

/-- Claim C2, amended: a new bundle group is opened exactly when the
dependency has a non-null resolution and (it is an entry, it is async, or
the resolved asset is isolated or inline); in particular every entry or
async dependency with non-null resolution opens a new bundle group. -/
theorem claim2_amended :
    ∀ (dep : PDependency) (resolution : Option PAsset),
      opensNewGroup dep resolution =
        (resolution.isSome && opensNewGroupSpec dep resolution) := by
  intro dep resolution
  cases resolution <;> simp [opensNewGroup, opensNewGroupSpec]

/-- Claim C7: when a new bundle group is opened, exactly one bundle is
created per resolved asset (the bundle list is the map of the bundle
constructor over the asset list, all attached to the new group), with the
asset as entry asset, `isEntry = dependency.isEntry && !asset.isIsolated`,
`isInline = asset.isInline`, and target equal to the dependency's target
or, when absent, the enclosing group's target. -/
theorem claim7_group_bundle_creation (dep : PDependency) (assets : List PAsset)
    (it : Option String) (t : String) (bs : List PBundle)
    (h : openBundleGroup dep assets it = some (t, bs)) :
    bs = assets.map (mkGroupBundle dep t)
    ∧ (∀ a : PAsset,
        (mkGroupBundle dep t a).entryAsset = some a.id ∧
        (mkGroupBundle dep t a).isEntry = (dep.isEntry && !a.isIsolated) ∧
        (mkGroupBundle dep t a).isInline = a.isInline ∧
        (mkGroupBundle dep t a).target = t)
    ∧ (dep.target = some t ∨ (dep.target = none ∧ it = some t)) := by
  have hfields : ∀ a : PAsset,
      (mkGroupBundle dep t a).entryAsset = some a.id ∧
      (mkGroupBundle dep t a).isEntry = (dep.isEntry && !a.isIsolated) ∧
      (mkGroupBundle dep t a).isInline = a.isInline ∧
      (mkGroupBundle dep t a).target = t := by
    intro a
    refine ⟨rfl, ?_, rfl, rfl⟩
    cases ha : a.isIsolated <;> simp [mkGroupBundle, ha]
  unfold openBundleGroup at h
  cases hd : dep.target with
  | some t0 =>
    rw [hd] at h
    simp only [Option.some.injEq, Prod.mk.injEq] at h
    obtain ⟨ht, hbs⟩ := h
    subst ht
    exact ⟨hbs.symm, hfields, Or.inl rfl⟩
  | none =>
    rw [hd] at h
    cases hi : it with
    | some t1 =>
      rw [hi] at h
      simp only [Option.some.injEq, Prod.mk.injEq] at h
      obtain ⟨ht, hbs⟩ := h
      subst ht
      exact ⟨hbs.symm, hfields, Or.inr ⟨rfl, rfl⟩⟩
    | none => rw [hi] at h; exact absurd h (by simp)

/-- Witness for claim C7 at a concrete input: the entry dependency `dep7`
with declared target `t` and the single non-isolated asset `asset7`. -/
theorem claim7_witness :
    (mkGroupBundle dep7 "t" asset7).isEntry = (dep7.isEntry && !asset7.isIsolated) :=
  ((claim7_group_bundle_creation dep7 [asset7] none "t"
      ([asset7].map (mkGroupBundle dep7 "t")) rfl).2.1 asset7).2.1

/-- Claim C8: `deduplicateBundle` leaves the whole graph unchanged when
the bundle's environment is isolated or the bundle is not splittable.
Both the postorder deduplication pass (`step2Dedup`) and the
deduplication of a freshly created shared bundle (inside
`processCandidate`) call this same function, so the frame property covers
both call sites. -/
theorem claim8_dedup_frame (g : OGraph) (bundle : OBundle)
    (h : bundle.envIsolated = true ∨ bundle.isSplittable = false) :
    deduplicateBundle g bundle = g := by
  unfold deduplicateBundle
  rcases h with h | h <;> simp [h]

/-- Witness for claim C8 at a concrete input: the environment-isolated
bundle `exB8` over the graph `exG1`. -/
theorem claim8_witness : deduplicateBundle exG1 exB8 = exG1 :=
  claim8_dedup_frame exG1 exB8 (Or.inl rfl)

/-- Claim C5: when any bundle group gathered for a shared-bundle
candidate already holds at least `maxParallelRequests` bundles, the
candidate is skipped entirely (`continue`): the resulting graph is the
unchanged input graph, so no shared bundle is created, no asset subgraph
moves, no membership changes, and (the function being total) no error is
raised. -/
theorem claim5_budget_skip (g : OGraph) (c : Cand)
    (h : (gatherGroups g c).any
        (fun grp => decide (OPTIONS.maxParallelRequests ≤ countGroup g grp)) = true) :
    processCandidate g c = g := by
  unfold processCandidate
  simp only [h, if_true]

/-- Witness for claim C5 at a concrete input: over `exG5`, group `gB`
already holds five bundles, so the candidate `cand5` is skipped. -/
theorem claim5_witness :
    ((gatherGroups exG5 cand5).any
        (fun grp => decide (OPTIONS.maxParallelRequests ≤ countGroup exG5 grp)) = true) ∧
      processCandidate exG5 cand5 = exG5 :=
  ⟨by decide, claim5_budget_skip exG5 cand5 (by decide)⟩

theorem internalizeStep_containment (dep : ODep) (res : String) (g : OGraph)
    (b : String) : (internalizeStep dep res g b).containment = g.containment := by
  unfold internalizeStep
  split <;> rfl

theorem internalizeStep_ancestor (dep : ODep) (res : String) (g : OGraph)
    (b : String) : (internalizeStep dep res g b).ancestorAsset = g.ancestorAsset := by
  unfold internalizeStep
  split <;> rfl

theorem mem_internalized_foldl (dep : ODep) (res : String) :
    ∀ (l : List String) (g0 : OGraph) (pr : String × String),
      pr ∈ (l.foldl (internalizeStep dep res) g0).internalized ↔
        pr ∈ g0.internalized ∨ ∃ b ∈ l, pr = (b, dep.id) ∧
          (decide ((b, res) ∈ g0.containment) || g0.ancestorAsset b res) = true := by
  intro l
  induction l with
  | nil => intro g0 pr; simp
  | cons b l ih =>
    intro g0 pr
    have hstep : (b :: l).foldl (internalizeStep dep res) g0 =
        l.foldl (internalizeStep dep res) (internalizeStep dep res g0 b) := rfl
    rw [hstep, ih]
    have hc : (internalizeStep dep res g0 b).containment = g0.containment :=
      internalizeStep_containment dep res g0 b
    have ha : (internalizeStep dep res g0 b).ancestorAsset = g0.ancestorAsset :=
      internalizeStep_ancestor dep res g0 b
    rw [hc, ha]
    constructor
    · rintro (hin | ⟨b', hb', hpr, hcond⟩)
      · unfold internalizeStep at hin
        by_cases hcb : (decide ((b, res) ∈ g0.containment) || g0.ancestorAsset b res) = true
        · rw [if_pos hcb] at hin
          simp only [List.mem_append, List.mem_singleton] at hin
          rcases hin with hin | hin
          · exact Or.inl hin
          · exact Or.inr ⟨b, List.mem_cons_self b l, hin, hcb⟩
        · rw [if_neg hcb] at hin
          exact Or.inl hin
      · exact Or.inr ⟨b', List.mem_cons_of_mem b hb', hpr, hcond⟩
    · rintro (hin | ⟨b', hb', hpr, hcond⟩)
      · left
        unfold internalizeStep
        split
        · simp only [List.mem_append]
          exact Or.inl hin
        · exact hin
      · rcases List.mem_cons.mp hb' with hb' | hb'
        · subst hb'
          left
          unfold internalizeStep
          rw [if_pos hcond]
          simp only [List.mem_append, List.mem_singleton]
          exact Or.inr hpr
        · exact Or.inr ⟨b', hb', hpr, hcond⟩

/-- Claim C6: for an async, non-entry dependency with non-null
resolution, the internalization step fails with the fatal
`ExternalResolutionMismatch` error exactly when the external resolution
is not a bundle group; when it is a bundle group, the step succeeds and
the dependency is internalized precisely in the bundles containing it
that already have the resolved asset or can reach it through ancestor
bundles. -/
theorem claim6_async_resolution (g : OGraph) (dep : ODep) (res : String)
    (hasync : dep.isAsync = true) (hentry : dep.isEntry = false)
    (hres : g.depResolution dep.id = some res) :
    (isBundleGroupRes (g.externalResolution dep.id) = false →
      processAsyncDep g dep = Except.error "ExternalResolutionMismatch")
    ∧ (∀ grp, g.externalResolution dep.id = some (ExternalRes.bundleGroup grp) →
        ∃ g', processAsyncDep g dep = Except.ok g' ∧
          ∀ b : String, ((b, dep.id) ∈ g'.internalized ↔
            (b, dep.id) ∈ g.internalized ∨
              (b ∈ g.bundlesWithDependency dep.id ∧
                (decide ((b, res) ∈ g.containment) || g.ancestorAsset b res) = true))) := by
  constructor
  · intro hext
    unfold processAsyncDep
    rw [hentry, hasync]
    simp only [Bool.false_or, Bool.not_true, if_false, Bool.false_eq_true]
    rw [hres]
    cases he : g.externalResolution dep.id with
    | none => rfl
    | some e =>
      cases e with
      | bundleGroup grp => rw [he] at hext; simp [isBundleGroupRes] at hext
      | asset a => rfl
  · intro grp hext
    refine ⟨((g.bundlesWithDependency dep.id).foldl (internalizeStep dep res)
      { g with asyncGroups := insertSet g.asyncGroups grp }), ?_, ?_⟩
    · unfold processAsyncDep
      rw [hentry, hasync]
      simp only [Bool.false_or, Bool.not_true, if_false, Bool.false_eq_true]
      rw [hres, hext]
    · intro b
      rw [mem_internalized_foldl]
      simp only [Prod.mk.injEq]
      constructor
      · rintro (hin | ⟨b', hb', ⟨hb, _⟩, hcond⟩)
        · exact Or.inl hin
        · subst hb
          exact Or.inr ⟨hb', hcond⟩
      · rintro (hin | ⟨hb, hcond⟩)
        · exact Or.inl hin
        · exact Or.inr ⟨b, hb, ⟨rfl, trivial⟩, hcond⟩

/-- Witness for claim C6 at concrete inputs: over `exG6b` the external
resolution of `d` is an asset and the step fails; over `exG6a` it is the
bundle group `gX` and the step succeeds, internalizing `d` in `bZ`. -/
theorem claim6_witness :
    processAsyncDep exG6b dep6 = Except.error "ExternalResolutionMismatch" ∧
      (∃ g', processAsyncDep exG6a dep6 = Except.ok g' ∧
        ∀ b : String, ((b, dep6.id) ∈ g'.internalized ↔
          (b, dep6.id) ∈ exG6a.internalized ∨
            (b ∈ exG6a.bundlesWithDependency dep6.id ∧
              (decide ((b, "A") ∈ exG6a.containment) ||
                exG6a.ancestorAsset b "A") = true))) :=
  ⟨(claim6_async_resolution exG6b dep6 "A" rfl rfl (by decide)).1 (by decide),
    (claim6_async_resolution exG6a dep6 "A" rfl rfl (by decide)).2 "gX" (by decide)⟩

theorem membership_removeAssetGraph (g : OGraph) (a b : String) :
    (removeAssetGraphFromBundle g a b).membership = g.membership := rfl

theorem membership_addAssetGraph (g : OGraph) (a b : String) :
    (addAssetGraphToBundle g a b).membership = g.membership := rfl

theorem foldl_membership_eq {α : Type} (f : OGraph → α → OGraph)
    (hf : ∀ g x, (f g x).membership = g.membership) :
    ∀ (l : List α) (g : OGraph), (l.foldl f g).membership = g.membership := by
  intro l
  induction l with
  | nil => intro g; rfl
  | cons x l ih => intro g; rw [List.foldl_cons, ih, hf]

theorem membership_deduplicateBundle (g : OGraph) (bundle : OBundle) :
    (deduplicateBundle g bundle).membership = g.membership := by
  unfold deduplicateBundle
  split
  · rfl
  · refine foldl_membership_eq _ ?_ _ g
    intro g1 dep
    refine foldl_membership_eq _ ?_ _ g1
    intro g2 asset
    split <;> rfl

theorem membership_moveCandidateAssets (g : OGraph) (c : Cand) (sid : String) :
    (moveCandidateAssets g c sid).membership = g.membership := by
  unfold moveCandidateAssets
  refine foldl_membership_eq _ ?_ _ g
  intro ga asset
  show (c.sourceBundles.foldl (fun gc b => removeAssetGraphFromBundle gc asset b.id)
      (addAssetGraphToBundle ga asset sid)).membership = ga.membership
  exact Eq.trans
    (foldl_membership_eq (fun gc b => removeAssetGraphFromBundle gc asset b.id)
      (fun _ _ => rfl) c.sourceBundles (addAssetGraphToBundle ga asset sid))
    (membership_addAssetGraph ga asset sid)

theorem countGroup_congr {g g' : OGraph} (h : g.membership = g'.membership)
    (grp : String) : countGroup g grp = countGroup g' grp := by
  unfold countGroup getBundlesInBundleGroup
  rw [h]

theorem countGroup_eq_card (g : OGraph) (grp : String) :
    countGroup g grp =
      ((g.membership.filter (fun p => p.2 == grp)).map Prod.fst).toFinset.card := by
  unfold countGroup getBundlesInBundleGroup
  rw [List.card_toFinset]

theorem mem_membership_addBundle {g : OGraph} {b grp0 : String} {pr : String × String}
    (h : pr ∈ (addBundleToBundleGroup g b grp0).membership) :
    pr ∈ g.membership ∨ pr = (b, grp0) := by
  unfold addBundleToBundleGroup at h
  split at h
  · exact Or.inl h
  · rcases List.mem_append.mp h with h1 | h1
    · exact Or.inl h1
    · exact Or.inr (List.mem_singleton.mp h1)

theorem countGroup_addBundle_ne (g : OGraph) (b : String) {grp0 grp : String}
    (h : grp0 ≠ grp) :
    countGroup (addBundleToBundleGroup g b grp0) grp = countGroup g grp := by
  unfold countGroup getBundlesInBundleGroup addBundleToBundleGroup
  split
  · rfl
  · rw [List.filter_append]
    have hnil : List.filter (fun p => p.2 == grp) [(b, grp0)] = [] := by
      simp [h]
    rw [hnil, List.append_nil]

theorem mem_membership_attachShared (sid : String) :
    ∀ (l : List String) (g : OGraph) (pr : String × String),
      pr ∈ (attachShared g sid l).membership → pr ∈ g.membership ∨ pr.1 = sid := by
  intro l
  induction l with
  | nil => intro g pr h; exact Or.inl h
  | cons grp l ih =>
    intro g pr h
    have hstep : attachShared g sid (grp :: l) =
        attachShared (addBundleToBundleGroup g sid grp) sid l := rfl
    rw [hstep] at h
    rcases ih _ pr h with h1 | h1
    · rcases mem_membership_addBundle h1 with h2 | h2
      · exact Or.inl h2
      · exact Or.inr (by rw [h2])
    · exact Or.inr h1

theorem countGroup_attachShared_le (g : OGraph) (sid : String) (l : List String)
    (grp : String) :
    countGroup (attachShared g sid l) grp ≤ countGroup g grp + 1 := by
  rw [countGroup_eq_card, countGroup_eq_card]
  have hsub : (((attachShared g sid l).membership.filter
      (fun p => p.2 == grp)).map Prod.fst).toFinset ⊆
        ((g.membership.filter (fun p => p.2 == grp)).map Prod.fst).toFinset ∪ {sid} := by
    intro x hx
    simp only [List.mem_toFinset, List.mem_map, List.mem_filter] at hx
    obtain ⟨p, ⟨hmem, hgrp⟩, hfst⟩ := hx
    rcases mem_membership_attachShared sid l g p hmem with h | h
    · apply Finset.mem_union_left
      simp only [List.mem_toFinset, List.mem_map, List.mem_filter]
      exact ⟨p, ⟨h, hgrp⟩, hfst⟩
    · apply Finset.mem_union_right
      simp only [Finset.mem_singleton]
      rw [← hfst, h]
  refine le_trans (Finset.card_le_card hsub) ?_
  refine le_trans (Finset.card_union_le _ _) ?_
  rw [Finset.card_singleton]

theorem countGroup_attachShared_not_mem (sid : String) :
    ∀ (l : List String) (g : OGraph) (grp : String), grp ∉ l →
      countGroup (attachShared g sid l) grp = countGroup g grp := by
  intro l
  induction l with
  | nil => intro g grp _; rfl
  | cons grp0 l ih =>
    intro g grp h
    have hstep : attachShared g sid (grp0 :: l) =
        attachShared (addBundleToBundleGroup g sid grp0) sid l := rfl
    rw [hstep, ih _ _ (fun hm => h (List.mem_cons_of_mem _ hm)),
      countGroup_addBundle_ne _ _
        (fun he => h (by rw [← he]; exact List.mem_cons_self grp0 l))]

theorem countGroup_processCandidate_le (g : OGraph) (c : Cand) (grp : String) :
    countGroup (processCandidate g c) grp ≤
      max (countGroup g grp) OPTIONS.maxParallelRequests := by
  unfold processCandidate
  by_cases hany : (gatherGroups g c).any
      (fun grp' => decide (OPTIONS.maxParallelRequests ≤ countGroup g grp')) = true
  · simp only [hany, if_true]
    exact le_max_left _ _
  · rw [Bool.not_eq_true] at hany
    simp only [hany, Bool.false_eq_true, if_false]
    split
    · exact le_max_left _ _
    · rename_i firstBundle rest heq
      have hded := countGroup_congr (membership_deduplicateBundle
        (attachShared (moveCandidateAssets
            { g with bundles := g.bundles ++ [sharedBundleFor c firstBundle] } c
            (sharedBundleFor c firstBundle).id)
          (sharedBundleFor c firstBundle).id (gatherGroups g c))
        (sharedBundleFor c firstBundle)) grp
    
      have hmove : countGroup (moveCandidateAssets
          { g with bundles := g.bundles ++ [sharedBundleFor c firstBundle] } c
          (sharedBundleFor c firstBundle).id) grp = countGroup g grp := by
        refine Eq.trans (countGroup_congr (membership_moveCandidateAssets _ _ _) grp) ?_
        exact countGroup_congr rfl grp
      rw [hded]
      by_cases hg : grp ∈ gatherGroups g c
      · have hdecf : ¬(decide (OPTIONS.maxParallelRequests ≤ countGroup g grp) = true) := by
          intro hdec
          have hT : (gatherGroups g c).any
              (fun grp' => decide (OPTIONS.maxParallelRequests ≤ countGroup g grp')) =
                true := List.any_eq_true.mpr ⟨grp, hg, hdec⟩
          rw [hany] at hT
          exact Bool.false_ne_true hT
        have hlt : countGroup g grp < OPTIONS.maxParallelRequests :=
          Nat.lt_of_not_le (fun hle => hdecf (decide_eq_true hle))
        refine le_max_of_le_right ?_
        refine le_trans (countGroup_attachShared_le _ _ _ grp) ?_
        rw [hmove]
        exact hlt
      · rw [countGroup_attachShared_not_mem _ _ _ _ hg, hmove]
        exact le_max_left _ _

theorem countGroup_processCandidates_le :
    ∀ (cands : List Cand) (g : OGraph) (grp : String),
      countGroup (processCandidates g cands) grp ≤
        max (countGroup g grp) OPTIONS.maxParallelRequests := by
  intro cands
  induction cands with
  | nil => intro g grp; exact le_max_left _ _
  | cons c cs ih =>
    intro g grp
    have hstep : processCandidates g (c :: cs) =
        processCandidates (processCandidate g c) cs := rfl
    rw [hstep]
    refine le_trans (ih _ grp) ?_
    exact max_le (le_trans (countGroup_processCandidate_le g c grp) (le_refl _))
      (le_max_right _ _)

/-- Claim C1, counterexample: in the hoist step (Step 1), group `G` of
`exG1` has 4 bundles (strictly below `maxParallelRequests`) at the step's
start but 6 bundles (strictly above `maxParallelRequests`) at its end:
the hoisted bundle `B` and its non-inline splittable sibling `S` are both
added after the pre-check only verified that `G` had fewer than
`maxParallelRequests` members. -/
theorem claim1_counterexample :
    countGroup exG1 "G" < OPTIONS.maxParallelRequests ∧
      OPTIONS.maxParallelRequests < countGroup (step1Hoist exG1) "G" := by
  decide

/-- Claim C1, amended: the per-step budget holds for the ancestor
deduplication step (which never changes group membership) and for the
shared-extraction step (each gathered group is checked to be strictly
below the limit and gains at most the one shared bundle), but not for the
hoist step, whose pre-check runs before the hoisted bundle and all of its
non-inline siblings are added and can therefore leave a group above
`maxParallelRequests`. -/
theorem claim1_amended_budget (g : OGraph) (cands : List Cand) (grp : String)
    (h : countGroup g grp < OPTIONS.maxParallelRequests) :
    countGroup (processCandidates g cands) grp ≤ OPTIONS.maxParallelRequests ∧
      countGroup (step2Dedup g) grp = countGroup g grp := by
  constructor
  · have hle := countGroup_processCandidates_le cands g grp
    rwa [max_eq_right (le_of_lt h)] at hle
  · exact countGroup_congr
      (foldl_membership_eq deduplicateBundle membership_deduplicateBundle g.bundles g) grp

/-- Witness for the amended claim C1 at a concrete input: over `exG4`,
group `gA` has 2 bundles and keeps at most `maxParallelRequests` after
processing the candidate `candX`; deduplication leaves the count at 2. -/
theorem claim1_witness :
    countGroup exG4 "gA" < OPTIONS.maxParallelRequests ∧
      (countGroup (processCandidates exG4 [candX]) "gA" ≤ OPTIONS.maxParallelRequests ∧
        countGroup (step2Dedup exG4) "gA" = countGroup exG4 "gA") :=
  ⟨by decide, claim1_amended_budget exG4 [candX] "gA" (by decide)⟩

theorem mem_insertBySize (c : Cand) :
    ∀ (l : List Cand) (x : Cand), x ∈ insertBySize c l ↔ x = c ∨ x ∈ l := by
  intro l
  induction l with
  | nil => intro x; simp [insertBySize]
  | cons d ds ih =>
    intro x
    unfold insertBySize
    split
    · simp only [List.mem_cons]
    · simp only [List.mem_cons, ih]
      tauto

theorem mem_sortBySizeDesc :
    ∀ (l : List Cand) (x : Cand), x ∈ sortBySizeDesc l ↔ x ∈ l := by
  intro l
  induction l with
  | nil => intro x; simp [sortBySizeDesc]
  | cons c cs ih =>
    intro x
    unfold sortBySizeDesc
    rw [mem_insertBySize]
    simp only [List.mem_cons, ih]

theorem pairwise_insertBySize (c : Cand) :
    ∀ (l : List Cand), l.Pairwise (fun a b => b.size ≤ a.size) →
      (insertBySize c l).Pairwise (fun a b => b.size ≤ a.size) := by
  intro l
  induction l with
  | nil => intro _; exact List.pairwise_singleton _ _
  | cons d ds ih =>
    intro hp
    unfold insertBySize
    split
    · rename_i hle
      refine List.Pairwise.cons ?_ hp
      intro y hy
      rcases List.mem_cons.mp hy with rfl | hy
      · exact hle
      · exact le_trans (List.rel_of_pairwise_cons hp hy) hle
    · rename_i hgt
      have hp' := List.pairwise_cons.mp hp
      refine List.pairwise_cons.mpr ⟨?_, ih hp'.2⟩
      intro y hy
      rcases (mem_insertBySize c ds y).mp hy with rfl | hy
      · exact le_of_lt (Nat.lt_of_not_le hgt)
      · exact hp'.1 y hy

theorem pairwise_sortBySizeDesc :
    ∀ (l : List Cand), (sortBySizeDesc l).Pairwise (fun a b => b.size ≤ a.size) := by
  intro l
  induction l with
  | nil => exact List.Pairwise.nil
  | cons c cs ih => exact pairwise_insertBySize c _ ih

theorem filter_insertBySize (c : Cand) (s : Nat) :
    ∀ (l : List Cand),
      (insertBySize c l).filter (fun d => d.size == s) =
        (if c.size == s then [c] else []) ++ l.filter (fun d => d.size == s) := by
  intro l
  induction l with
  | nil =>
    by_cases hc : c.size = s <;> simp [insertBySize, List.filter_cons, hc]
  | cons d ds ih =>
    unfold insertBySize
    split
    · rename_i hle
      by_cases hc : c.size = s <;> simp [List.filter_cons, hc]
    · rename_i hgt
      by_cases hd : d.size = s
      · have hc : ¬c.size = s := by
          intro hc
          exact hgt (le_of_eq (by rw [hc, hd]))
        simp [List.filter_cons, hd, hc, ih]
      · by_cases hc : c.size = s <;> simp [List.filter_cons, hd, hc, ih]

theorem filter_sortBySizeDesc (s : Nat) :
    ∀ (l : List Cand),
      (sortBySizeDesc l).filter (fun d => d.size == s) =
        l.filter (fun d => d.size == s) := by
  intro l
  induction l with
  | nil => rfl
  | cons c cs ih =>
    unfold sortBySizeDesc
    rw [filter_insertBySize, ih, List.filter_cons]
    by_cases hc : c.size = s <;> simp [hc]

/-- Claim C4, counterexample: over `exG4`, the two candidates have equal
accumulated size (40000) but their processing order follows the traversal
insertion order, not the key string: visiting `x` before `y` yields keys
`["1:2", "0:3"]`, visiting `y` before `x` yields `["0:3", "1:2"]`, even
though `"0:3" < "1:2"` in string order; so equal-size candidates are not
ordered by their key string in either direction. -/
theorem claim4_counterexample :
    (sortedCandidates exG4 ["x", "y"]).map candKey = ["1:2", "0:3"] ∧
      (sortedCandidates exG4 ["y", "x"]).map candKey = ["0:3", "1:2"] ∧
      (sortedCandidates exG4 ["x", "y"]).map Cand.size = [40000, 40000] ∧
      strLt "0:3" "1:2" = true := by
  refine ⟨?_, ?_, ?_, ?_⟩ <;> decide

/-- Claim C4, amended: candidate processing order is deterministic:
candidates are sorted descending by accumulated size with a stable sort
whose comparator uses the size alone, so candidates of equal size keep
the order in which their keys were first inserted during the (itself
deterministic) content traversal — not their key-string order; two runs
over structurally identical inputs still process candidates in the same
order. -/
theorem claim4_amended (g : OGraph) (assetOrder : List String) :
    (sortedCandidates g assetOrder).Pairwise (fun a b => b.size ≤ a.size) ∧
      ∀ s : Nat, (sortedCandidates g assetOrder).filter (fun c => c.size == s) =
        (filteredCandidates g assetOrder).filter (fun c => c.size == s) :=
  ⟨pairwise_sortBySizeDesc _, fun s => filter_sortBySizeDesc s _⟩

theorem nodup_foldl_insertBundleSet :
    ∀ (l acc : List OBundle), acc.Nodup → (l.foldl insertBundleSet acc).Nodup := by
  intro l
  induction l with
  | nil => intro acc h; exact h
  | cons b l ih =>
    intro acc h
    refine ih _ ?_
    unfold insertBundleSet
    split
    · exact h
    · rename_i hnot
      rw [List.nodup_append]
      exact ⟨h, List.nodup_singleton b,
        fun a ha hb => hnot (by rwa [List.mem_singleton.mp hb] at ha)⟩

theorem mem_foldl_insertBundleSet :
    ∀ (l acc : List OBundle) (x : OBundle),
      (x ∈ acc ∨ x ∈ l) → x ∈ l.foldl insertBundleSet acc := by
  intro l
  induction l with
  | nil =>
    intro acc x h
    rcases h with h | h
    · exact h
    · simp at h
  | cons b l ih =>
    intro acc x h
    show x ∈ l.foldl insertBundleSet (insertBundleSet acc b)
    refine ih _ x ?_
    rcases h with h | h
    · left
      unfold insertBundleSet
      split
      · exact h
      · exact List.mem_append_left _ h
    · rcases List.mem_cons.mp h with rfl | h
      · left
        unfold insertBundleSet
        split
        · rename_i hin
          exact hin
        · exact List.mem_append_right _ (List.mem_singleton.mpr rfl)
      · exact Or.inr h

theorem length_le_foldl_insertBundleSet :
    ∀ (l acc : List OBundle), acc.length ≤ (l.foldl insertBundleSet acc).length := by
  intro l
  induction l with
  | nil => intro acc; exact le_refl _
  | cons b l ih =>
    intro acc
    refine le_trans ?_ (ih (insertBundleSet acc b))
    unfold insertBundleSet
    split
    · exact le_refl _
    · rw [List.length_append]
      exact Nat.le_add_right _ _

theorem two_le_length_of_mem {α : Type} [DecidableEq α] {a b : α} {l : List α}
    (ha : a ∈ l) (hb : b ∈ l) (hab : a ≠ b) : 2 ≤ l.length := by
  have hsub : ({a, b} : Finset α) ⊆ l.toFinset := by
    intro x hx
    rcases Finset.mem_insert.mp hx with rfl | hx
    · exact List.mem_toFinset.mpr ha
    · rw [Finset.mem_singleton.mp hx]
      exact List.mem_toFinset.mpr hb
  calc (2 : Nat) = ({a, b} : Finset α).card := (Finset.card_pair hab).symm
    _ ≤ l.toFinset.card := Finset.card_le_card hsub
    _ ≤ l.length := List.toFinset_card_le l

theorem candInv_considerAsset (g : OGraph) (hnd : g.bundles.Nodup)
    (m : List (String × Cand)) (asset : String)
    (hm : ∀ p ∈ m, p.2.sourceBundles.Nodup ∧ 2 ≤ p.2.sourceBundles.length) :
    ∀ p ∈ considerAsset g m asset,
      p.2.sourceBundles.Nodup ∧ 2 ≤ p.2.sourceBundles.length := by
  intro p hp
  simp only [considerAsset] at hp
  split at hp
  · rename_i hlen
    split at hp
    · rename_i cOld heq
      unfold mapUpdate at hp
      obtain ⟨q, hq, hpq⟩ := List.mem_map.mp hp
      by_cases hqk : q.1 = candidateKey
          ((findBundlesWithAsset g asset).filter (candidateSourceFilter asset))
      · rw [if_pos hqk] at hpq
        rw [← hpq]
        constructor
        · exact nodup_foldl_insertBundleSet _ _ (hm q hq).1
        · exact le_trans (hm q hq).2 (length_le_foldl_insertBundleSet _ _)
      · rw [if_neg hqk] at hpq
        rw [← hpq]
        exact hm q hq
    · rcases List.mem_append.mp hp with hp1 | hp1
      · exact hm p hp1
      · have hpq := List.mem_singleton.mp hp1
        rw [hpq]
        have hnodupL : ((findBundlesWithAsset g asset).filter
            (candidateSourceFilter asset)).Nodup :=
          (hnd.filter _).filter _
        constructor
        · exact nodup_foldl_insertBundleSet _ _ List.nodup_nil
        · rcases hL : (findBundlesWithAsset g asset).filter
              (candidateSourceFilter asset) with _ | ⟨x, _ | ⟨y, rest⟩⟩
          · rw [hL] at hlen
            exact absurd hlen (by decide)
          · rw [hL] at hlen
            exact absurd hlen (by simp [OPTIONS.minBundles])
          · rw [hL] at hnodupL
            have hxy : x ≠ y := by
              intro hxy
              have hnotin := (List.nodup_cons.mp hnodupL).1
              rw [hxy] at hnotin
              exact hnotin (List.mem_cons_self y rest)
            show 2 ≤ (List.foldl insertBundleSet [] (x :: y :: rest)).length
            refine two_le_length_of_mem ?_ ?_ hxy
            · exact mem_foldl_insertBundleSet _ _ x
                (Or.inr (List.mem_cons_self x (y :: rest)))
            · exact mem_foldl_insertBundleSet _ _ y
                (Or.inr (List.mem_cons_of_mem x (List.mem_cons_self y rest)))
  · exact hm p hp

theorem candInv_collectCandidates (g : OGraph) (hnd : g.bundles.Nodup) :
    ∀ (assetOrder : List String) (m : List (String × Cand)),
      (∀ p ∈ m, p.2.sourceBundles.Nodup ∧ 2 ≤ p.2.sourceBundles.length) →
      ∀ p ∈ assetOrder.foldl (considerAsset g) m,
        p.2.sourceBundles.Nodup ∧ 2 ≤ p.2.sourceBundles.length := by
  intro assetOrder
  induction assetOrder with
  | nil => intro m hm; exact hm
  | cons a rest ih =>
    intro m hm
    exact ih _ (candInv_considerAsset g hnd m a hm)

/-- Claim C3: every candidate that reaches the processing loop (and hence
every candidate for which a shared bundle is created) satisfies both
thresholds: accumulated size at least `minBundleSize` and a
duplicate-free set of more than `minBundles` source bundles, i.e. at
least two. -/
theorem claim3_shared_thresholds (g : OGraph) (assetOrder : List String) (c : Cand)
    (hnd : (g.bundles.map OBundle.id).Nodup)
    (hc : c ∈ sortedCandidates g assetOrder) :
    OPTIONS.minBundleSize ≤ c.size ∧ c.sourceBundles.Nodup ∧
      OPTIONS.minBundles < c.sourceBundles.length := by
  have hc' : c ∈ filteredCandidates g assetOrder := (mem_sortBySizeDesc _ c).mp hc
  unfold filteredCandidates at hc'
  have hmem := List.mem_filter.mp hc'
  have hsize : OPTIONS.minBundleSize ≤ c.size := of_decide_eq_true hmem.2
  obtain ⟨p, hp, hpc⟩ := List.mem_map.mp hmem.1
  have hinv := candInv_collectCandidates g (List.Nodup.of_map _ hnd) assetOrder []
    (by intro q hq; simp at hq) p hp
  rw [hpc] at hinv
  exact ⟨hsize, hinv.1, lt_of_lt_of_le (by decide) hinv.2⟩

/-- Witness for claim C3 at a concrete input: the candidate `candX`
produced over `exG4`. -/
theorem claim3_witness :
    OPTIONS.minBundleSize ≤ candX.size ∧ candX.sourceBundles.Nodup ∧
      OPTIONS.minBundles < candX.sourceBundles.length :=
  claim3_shared_thresholds exG4 ["x", "y"] candX (by decide) (by decide)
